import Mathlib

/-!
Verification of the server resource-lifecycle and observability core of the
sneaky-platform backend (src/sneaky-backend/src). Every definition below is a
shallow embedding of one function of the source; the file and symbol it embeds
are named in its doc comment. The theorems at the end of the file settle the
specification claims against these definitions.

Modelling conventions: database rows are Lean structures, the per-server metric
store is a list in insertion order, money and utilisation percentages are
rationals, timestamps are milliseconds as naturals, and the node timers
(setInterval / setTimeout) are explicit scheduled-task state threaded through a
step function. The spec's per-server generation counter does not exist in the
source schema; it is carried as ghost instrumentation (field `generation`,
incremented exactly at every status update the source performs) so that claims
phrased in terms of it can be stated.
-/

/-- Server lifecycle states: the values the source writes into the `status`
column of the servers table. -/
inductive ServerStatus
  | pending
  | running
  | stopped
  | failed
  | terminated
deriving DecidableEq

/-- Hardware specification and price of one catalog entry
(ServerService.ts, interface InstanceSpecs). -/
structure InstanceSpecs where
  cpu : Nat
  memory : Nat
  storage : Nat
  bandwidth : Nat
  monthlyPrice : ℚ
deriving DecidableEq

/-- The static instance catalog (ServerService.instanceSpecs, lines 14-44)
followed by the lookup of ServerService.getInstanceSpecs (lines 46-52):
`none` is the thrown "Unknown instance type" error. -/
def instanceSpecs (provider instanceType : String) : Option InstanceSpecs :=
  match provider, instanceType with
  | "aws", "t3.micro" => some ⟨2, 1, 20, 100, 8.5⟩
  | "aws", "t3.small" => some ⟨2, 2, 20, 100, 17⟩
  | "aws", "t3.medium" => some ⟨2, 4, 30, 200, 34⟩
  | "aws", "t3.large" => some ⟨2, 8, 50, 300, 68⟩
  | "aws", "m5.large" => some ⟨2, 8, 50, 500, 88⟩
  | "aws", "m5.xlarge" => some ⟨4, 16, 100, 750, 176⟩
  | "digitalocean", "s-1vcpu-1gb" => some ⟨1, 1, 25, 1000, 6⟩
  | "digitalocean", "s-1vcpu-2gb" => some ⟨1, 2, 50, 2000, 12⟩
  | "digitalocean", "s-2vcpu-2gb" => some ⟨2, 2, 60, 3000, 18⟩
  | "digitalocean", "s-2vcpu-4gb" => some ⟨2, 4, 80, 4000, 24⟩
  | "digitalocean", "s-4vcpu-8gb" => some ⟨4, 8, 160, 5000, 48⟩
  | "gcp", "e2-micro" => some ⟨2, 1, 20, 100, 7⟩
  | "gcp", "e2-small" => some ⟨2, 2, 20, 200, 14⟩
  | "gcp", "e2-medium" => some ⟨2, 4, 30, 300, 28⟩
  | "gcp", "e2-standard-2" => some ⟨2, 8, 50, 500, 56⟩
  | "gcp", "e2-standard-4" => some ⟨4, 16, 100, 750, 112⟩
  | "azure", "B1s" => some ⟨1, 1, 30, 100, 8⟩
  | "azure", "B1ms" => some ⟨1, 2, 30, 200, 16⟩
  | "azure", "B2s" => some ⟨2, 4, 60, 400, 32⟩
  | "azure", "B2ms" => some ⟨2, 8, 60, 600, 64⟩
  | "azure", "B4ms" => some ⟨4, 16, 120, 1000, 128⟩
  | _, _ => none

/-- The body of POST /api/servers (routes/servers.ts lines 142-202): provider
and instance type plus the optional cpu/memory/storage overrides the request
body may carry (validated as integers of at least 1, so the JavaScript
`cpu || instanceSpecs.cpu` fallback is exactly `Option.getD`). -/
structure CreateServerRequest where
  provider : String
  instanceType : String
  cpu : Option Nat
  memory : Option Nat
  storage : Option Nat
deriving DecidableEq

/-- The specification columns the creation handler stores into the new server
row, plus its initial status. -/
structure CreatedServer where
  cpu : Nat
  memory : Nat
  storage : Nat
  bandwidth : Nat
  monthlyPrice : ℚ
  status : ServerStatus
deriving DecidableEq

/-- prisma.server.create of POST /api/servers (routes/servers.ts lines
172-191): the stored row copies bandwidth and monthlyPrice from the catalog,
while cpu, memory and storage fall back to the catalog only when the request
did not override them; status is always pending. -/
def createServer (req : CreateServerRequest) : Option CreatedServer :=
  (instanceSpecs req.provider req.instanceType).map fun specs =>
    { cpu := req.cpu.getD specs.cpu
      memory := req.memory.getD specs.memory
      storage := req.storage.getD specs.storage
      bandwidth := specs.bandwidth
      monthlyPrice := specs.monthlyPrice
      status := .pending }

/-- The lifecycle-relevant part of one server row. `generation` is ghost
instrumentation (the source schema has no such column): it starts at 0 and is
incremented at exactly the status updates the source performs, matching the
spec's rule that every transition increments the counter. -/
structure ServerRec where
  status : ServerStatus
  ipAddress : String
  generation : Nat
deriving DecidableEq

/-- State of one server's lifecycle together with its pending provisioning
one-shot task (the setTimeout of ServerService.provisionServer, line 73).
`provisionCapturedGen` records the ghost generation at schedule time. -/
structure LifecycleState where
  server : Option ServerRec
  provisionScheduled : Bool
  provisionCapturedGen : Nat
deriving DecidableEq

/-- Rejections of the lifecycle routes. `invalidTransition` is
createError("Server is already running"/"Server is already stopped", 400),
the spec's InvalidTransition. -/
inductive LifecycleErr
  | notFound
  | invalidTransition
deriving DecidableEq

def initLifecycle : LifecycleState := ⟨none, false, 0⟩

/-- POST /api/servers (routes/servers.ts lines 142-202): creates the row with
status pending and address 0.0.0.0, then ServerService.provisionServer
schedules the provisioning completion (setTimeout, 30000 ms). The model tracks
one server; creating while one exists is a different server id and is a no-op
here. -/
def applyCreate (st : LifecycleState) : LifecycleState :=
  match st.server with
  | some _ => st
  | none =>
    { server := some { status := .pending, ipAddress := "0.0.0.0", generation := 0 }
      provisionScheduled := true
      provisionCapturedGen := 0 }

/-- POST /api/servers/:id/start (routes/servers.ts lines 269-289) followed by
ServerService.startServer (lines 115-138): not found is rejected; a server
already running is rejected with 400 before any update; every other status is
updated to running. -/
def applyStart (st : LifecycleState) : LifecycleState × Option LifecycleErr :=
  match st.server with
  | none => (st, some .notFound)
  | some srv =>
    if srv.status = .running then (st, some .invalidTransition)
    else
      ({ st with
          server := some { srv with status := .running, generation := srv.generation + 1 } },
        none)

/-- POST /api/servers/:id/stop (routes/servers.ts lines 309-329) followed by
ServerService.stopServer (lines 140-163): a server already stopped is rejected
with 400 before any update; every other status is updated to stopped. -/
def applyStop (st : LifecycleState) : LifecycleState × Option LifecycleErr :=
  match st.server with
  | none => (st, some .notFound)
  | some srv =>
    if srv.status = .stopped then (st, some .invalidTransition)
    else
      ({ st with
          server := some { srv with status := .stopped, generation := srv.generation + 1 } },
        none)

/-- The provisioning setTimeout callback, success path (ServerService.ts lines
73-99): it updates the row to running with a synthetic address without looking
at the current status or any generation value. When the row no longer exists
the prisma update throws, the catch block's update to failed throws on the same
missing row, and nothing is mutated. The model uses a fixed synthetic address
for the inline random one. -/
def applyProvisionOk (st : LifecycleState) : LifecycleState :=
  if st.provisionScheduled then
    match st.server with
    | some srv =>
      { server := some { status := .running, ipAddress := "10.0.0.1", generation := srv.generation + 1 }
        provisionScheduled := false
        provisionCapturedGen := st.provisionCapturedGen }
    | none => { st with provisionScheduled := false }
  else st

/-- The provisioning setTimeout callback, failure path (ServerService.ts lines
100-106): the catch block updates the row to failed; on a missing row that
update throws as well and nothing is mutated. -/
def applyProvisionErr (st : LifecycleState) : LifecycleState :=
  if st.provisionScheduled then
    match st.server with
    | some srv =>
      { server := some { srv with status := .failed, generation := srv.generation + 1 }
        provisionScheduled := false
        provisionCapturedGen := st.provisionCapturedGen }
    | none => { st with provisionScheduled := false }
  else st

/-- The operations of the lifecycle core: the two routes, creation, and the
two outcomes of the scheduled provisioning completion. -/
inductive LifeOp
  | create
  | start
  | stop
  | provisionOk
  | provisionErr
deriving DecidableEq

def applyLifeOp (o : LifeOp) (st : LifecycleState) : LifecycleState :=
  match o with
  | .create => applyCreate st
  | .start => (applyStart st).1
  | .stop => (applyStop st).1
  | .provisionOk => applyProvisionOk st
  | .provisionErr => applyProvisionErr st

def statusOf (st : LifecycleState) : Option ServerStatus := st.server.map (fun s => s.status)

/-- The status edges a trace of operations takes: the (before, after) pairs at
each step where the stored status changes. -/
def edgesFrom (st : LifecycleState) : List LifeOp → List (ServerStatus × ServerStatus)
  | [] => []
  | o :: rest =>
    let st' := applyLifeOp o st
    (match statusOf st, statusOf st' with
      | some a, some b => if a = b then [] else [(a, b)]
      | _, _ => []) ++ edgesFrom st' rest

def edgesOf (tr : List LifeOp) : List (ServerStatus × ServerStatus) :=
  edgesFrom initLifecycle tr

/-- The transition edges of the spec's section 4.2 state graph:
pending to running, pending to failed, running to stopped, stopped to running,
and any non-terminal state (not failed, not terminated) to terminated. -/
def allowedEdge (a b : ServerStatus) : Bool :=
  (a == .pending && b == .running) || (a == .pending && b == .failed) ||
  (a == .running && b == .stopped) || (a == .stopped && b == .running) ||
  (!(a == .failed) && !(a == .terminated) && b == .terminated)

/-- The edges the source actually permits: start moves anything not running to
running, stop moves anything not stopped to stopped, and the provisioning
callback moves anything to running or failed. -/
def reachableEdge (a b : ServerStatus) : Bool :=
  (b == .running && !(a == .running)) || (b == .stopped && !(a == .stopped)) ||
  (b == .failed && !(a == .failed))

/-- Deployment lifecycle states (the `status` column of the deployments
table). -/
inductive DeployStatus
  | pending
  | building
  | deployed
  | failed
deriving DecidableEq

structure DeploymentRec where
  status : DeployStatus
  buildLogs : String
deriving DecidableEq

/-- State of one deployment together with its two scheduled one-shot stages:
the outer setTimeout (5000 ms, moves to building) and the inner setTimeout
(30000 ms, resolves), routes/deployments.ts lines 164-206. -/
structure DeployState where
  deployment : Option DeploymentRec
  stage1Scheduled : Bool
  stage2Scheduled : Bool
deriving DecidableEq

/-- Rejections of the deployment routes; `serverNotReady` is
createError("Server must be running to deploy"/"to redeploy", 400). -/
inductive DeployErr
  | notFound
  | serverNotReady
deriving DecidableEq

/-- POST /api/deployments (routes/deployments.ts lines 102-214): requires the
referenced server to be running, creates the row in status pending and
schedules the first stage. -/
def createDeployment (serverStatus : ServerStatus) : Except DeployErr DeployState :=
  if serverStatus = .running then
    .ok { deployment := some { status := .pending, buildLogs := "" }
          stage1Scheduled := true
          stage2Scheduled := false }
  else .error .serverNotReady

/-- The scheduled deployment events: the two stage timers firing (the second
with the Math.random() > 0.2 outcome as a parameter) and external removal of
the row by the persistence layer. -/
inductive DeployEvent
  | fireStage1
  | fireStage2 (success : Bool)
  | recordDeleted
deriving DecidableEq

/-- The two setTimeout callbacks of POST /api/deployments (lines 164-206).
Stage 1 updates the row to building with the initial log and schedules stage 2;
when the row is gone the update throws, is caught and logged, and stage 2 is
never scheduled. Stage 2 updates the row to deployed or failed with the
terminal log; when the row is gone the update throws, is caught, and nothing
is mutated. -/
def applyDeployEvent (e : DeployEvent) (ds : DeployState) : DeployState :=
  match e with
  | .fireStage1 =>
    if ds.stage1Scheduled then
      match ds.deployment with
      | some _ =>
        { deployment := some
            { status := .building
              buildLogs := "Starting build process...\nCloning repository...\nInstalling dependencies..." }
          stage1Scheduled := false
          stage2Scheduled := true }
      | none => { ds with stage1Scheduled := false }
    else ds
  | .fireStage2 success =>
    if ds.stage2Scheduled then
      match ds.deployment with
      | some _ =>
        { deployment := some
            (if success then
              { status := .deployed
                buildLogs := "Build completed successfully!\nDeployment is live." }
            else
              { status := .failed
                buildLogs := "Build failed: npm install failed\nError: Module not found" })
          stage1Scheduled := ds.stage1Scheduled
          stage2Scheduled := false }
      | none => { ds with stage2Scheduled := false }
    else ds
  | .recordDeleted => { ds with deployment := none }

/-- POST /api/deployments/:id/redeploy (routes/deployments.ts lines 278-310):
requires the row to exist and the server to be running, then updates the row to
building with a fresh log. It contains no setTimeout: the scheduled-stage flags
are returned unchanged. -/
def redeploy (serverStatus : ServerStatus) (ds : DeployState) : DeployState × Option DeployErr :=
  match ds.deployment with
  | none => (ds, some .notFound)
  | some _ =>
    if serverStatus = .running then
      ({ ds with
          deployment := some
            { status := .building
              buildLogs := "Redeployment started...\nPulling latest changes..." } },
        none)
    else (ds, some .serverNotReady)

/-- The metrics interval registry (ServerService.metricsIntervals, line 165):
the map from server id to timer handle, the handles clearInterval has been
called on, and a counter allocating fresh handles. -/
structure CollectorState where
  intervals : List (String × Nat)
  cancelled : List Nat
  nextHandle : Nat
deriving DecidableEq

def lookupInterval (serverId : String) (st : CollectorState) : Option Nat :=
  (st.intervals.find? (fun p => p.1 == serverId)).map (fun p => p.2)

/-- ServerService.stopMetricsCollection (lines 230-236): when an interval is
registered for the id it is cleared and the map entry deleted; otherwise
nothing happens. -/
def stopMetricsCollection (serverId : String) (st : CollectorState) : CollectorState :=
  match lookupInterval serverId st with
  | some h =>
    { intervals := st.intervals.filter (fun p => !(p.1 == serverId))
      cancelled := h :: st.cancelled
      nextHandle := st.nextHandle }
  | none => st

/-- ServerService.startMetricsCollection (lines 167-228): first clears any
existing interval for the id, then registers a fresh timer handle for it. -/
def startMetricsCollection (serverId : String) (st : CollectorState) : CollectorState :=
  let st1 := stopMetricsCollection serverId st
  { intervals := (serverId, st1.nextHandle) :: st1.intervals
    cancelled := st1.cancelled
    nextHandle := st1.nextHandle + 1 }

/-- Well-formedness of the registry: a JavaScript Map holds at most one entry
per key. -/
def CollectorWF (st : CollectorState) : Prop :=
  (st.intervals.map (fun p => p.1)).Nodup

/-- One stored metric sample of one server; only the row id and the timestamp
take part in retention. -/
structure Sample where
  id : Nat
  ts : Nat
deriving DecidableEq

/-- The retention cap: the collector tick keeps the last 1000 records
(ServerService.ts line 207). -/
def retentionCap : Nat := 1000

def insertTsDesc (s : Sample) : List Sample → List Sample
  | [] => [s]
  | y :: ys => if y.ts ≤ s.ts then s :: y :: ys else y :: insertTsDesc s ys

/-- findMany with orderBy timestamp desc: the store sorted newest first. -/
def sortTsDesc (l : List Sample) : List Sample := l.foldr insertTsDesc []

/-- The retention step the collector tick runs after each insert
(ServerService.ts lines 207-220): findMany(orderBy timestamp desc, skip 1000)
selects every sample past the newest 1000, and deleteMany removes exactly those
row ids from the store. -/
def enforceRetention (store : List Sample) : List Sample :=
  store.filter
    (fun s => !(((sortTsDesc store).drop retentionCap).any (fun o => o.id == s.id)))

/-- One collector tick's effect on the store: prisma.serverMetric.create
appends the new sample, then retention runs. -/
def insertSample (store : List Sample) (s : Sample) : List Sample :=
  enforceRetention (store ++ [s])

/-- The store after a sequence of ticks starting from an empty store. -/
def runInserts (samples : List Sample) : List Sample :=
  samples.foldl insertSample []

/-- One row of the serverMetric table as the monitoring overview reads it. -/
structure MetricRow where
  id : Nat
  ts : Nat
  cpuUsage : ℚ
  memoryUsage : ℚ
  diskUsage : ℚ
deriving DecidableEq

inductive AlertType
  | cpu
  | memory
  | disk
deriving DecidableEq

/-- The alert filter of GET /api/monitoring/overview (routes/monitoring.ts
lines 61-66): strict comparisons against 80 / 85 / 90. -/
def isAlert (m : MetricRow) : Bool :=
  decide ((80 : ℚ) < m.cpuUsage) || decide ((85 : ℚ) < m.memoryUsage) ||
    decide ((90 : ℚ) < m.diskUsage)

/-- The alert type tag (routes/monitoring.ts lines 72-73): cpu first, then
memory, then disk. -/
def alertType (m : MetricRow) : AlertType :=
  if (80 : ℚ) < m.cpuUsage then .cpu
  else if (85 : ℚ) < m.memoryUsage then .memory
  else .disk

/-- The alerts list of GET /api/monitoring/overview (lines 61-78): the recent
metrics (as the query returns them, newest first) filtered by the thresholds,
sliced to the first 10, each tagged with its type. -/
def overviewAlerts (recentMetrics : List MetricRow) : List (MetricRow × AlertType) :=
  ((recentMetrics.filter isAlert).take 10).map (fun m => (m, alertType m))

/-- Milliseconds per day, the divisor of the billing proration
(routes usage handler: 1000 * 60 * 60 * 24). -/
def dayMs : Nat := 86400000

/-- now.getDate() as the usage handler uses it (`daysPassed`): the 1-based day
of the month, computed here from the milliseconds since the local midnight
starting the month (the no-DST reading of the Date API). -/
def daysPassed (nowMs somMs : Nat) : Nat := (nowMs - somMs) / dayMs + 1

/-- `serverStartDate` of the usage handler: the later of the server's creation
instant and the start of the current month. -/
def serverStartDate (createdAtMs somMs : Nat) : Nat := max createdAtMs somMs

/-- `daysUsed` of the usage handler: Math.ceil of the elapsed time since
serverStartDate, in days. -/
def daysUsed (nowMs createdAtMs somMs : Nat) : Int :=
  ⌈((nowMs : ℚ) - (serverStartDate createdAtMs somMs : ℚ)) / (dayMs : ℚ)⌉

/-- `proratedCost` of GET /api/billing/usage (servers routes file, usage
handler): monthlyPrice / daysInMonth * Math.min(daysUsed, daysPassed). -/
def proratedCost (monthlyPrice : ℚ) (daysInMonth : Nat) (nowMs createdAtMs somMs : Nat) : ℚ :=
  (monthlyPrice / (daysInMonth : ℚ)) *
    min ((daysUsed nowMs createdAtMs somMs : ℚ)) ((daysPassed nowMs somMs : ℚ))

/-- The two columns of one server the usage handler's proration reads. -/
structure BillingServer where
  monthlyPrice : ℚ
  createdAtMs : Nat
deriving DecidableEq

/-- `currentUsage` of the usage handler: the sum of the prorated costs. -/
def currentMonthUsage (servers : List BillingServer) (daysInMonth : Nat) (nowMs somMs : Nat) : ℚ :=
  (servers.map (fun s => proratedCost s.monthlyPrice daysInMonth nowMs s.createdAtMs somMs)).sum

/-- `projectedMonthlyCost` of the usage handler:
currentUsage / daysPassed * daysInMonth. -/
def projectedMonthlyCost (servers : List BillingServer) (daysInMonth : Nat) (nowMs somMs : Nat) : ℚ :=
  (currentMonthUsage servers daysInMonth nowMs somMs / (daysPassed nowMs somMs : ℚ)) *
    (daysInMonth : ℚ)

/-- C4: starting a server whose current status is running is rejected with
InvalidTransition (createError "Server is already running", 400, thrown before
any update): the returned state is the input state, so the stored status and
the ghost generation counter are both unchanged. -/
theorem start_running_rejected (st : LifecycleState) (srv : ServerRec)
    (hs : st.server = some srv) (hr : srv.status = ServerStatus.running) :
    applyStart st = (st, some LifecycleErr.invalidTransition) := by
  simp [applyStart, hs, hr]

/-- Witness for `start_running_rejected` at a concrete running server. -/
theorem start_running_rejected_witness :
    applyStart ⟨some ⟨ServerStatus.running, "10.0.0.1", 3⟩, false, 0⟩ =
      (⟨some ⟨ServerStatus.running, "10.0.0.1", 3⟩, false, 0⟩,
        some LifecycleErr.invalidTransition) :=
  start_running_rejected _ _ rfl rfl

/-- C3 as stated is false of the source: the trace create-then-stop performs
the status edge pending to stopped (the stop route rejects only a server
already stopped), and that edge is not in the section 4.2 graph. -/
theorem lifecycle_edge_counterexample :
    edgesOf [LifeOp.create, LifeOp.stop] =
      [(ServerStatus.pending, ServerStatus.stopped)] ∧
    allowedEdge ServerStatus.pending ServerStatus.stopped = false := by
  exact ⟨rfl, rfl⟩

/-- Any single operation that changes the stored status takes an edge of
`reachableEdge`: into running (start, or the provisioning success callback,
each from any other status), into stopped (stop, from any other status), or
into failed (the provisioning failure path, from any other status). -/
theorem reachable_step (st : LifecycleState) (o : LifeOp) (a b : ServerStatus)
    (ha : statusOf st = some a) (hb : statusOf (applyLifeOp o st) = some b)
    (hab : a ≠ b) : reachableEdge a b = true := by
  rcases st with ⟨srvo, sched, cap⟩
  rcases srvo with _ | srv
  · cases o <;> simp [statusOf] at ha
  · cases o with
    | create =>
      simp [applyLifeOp, applyCreate, statusOf] at ha hb
      exact absurd (ha.symm.trans hb) hab
    | start =>
      by_cases h : srv.status = ServerStatus.running
      · simp [applyLifeOp, applyStart, h, statusOf] at ha hb
        exact absurd (ha.symm.trans hb) hab
      · simp [applyLifeOp, applyStart, h, statusOf] at ha hb
        subst ha; subst hb
        simp [reachableEdge, h]
    | stop =>
      by_cases h : srv.status = ServerStatus.stopped
      · simp [applyLifeOp, applyStop, h, statusOf] at ha hb
        exact absurd (ha.symm.trans hb) hab
      · simp [applyLifeOp, applyStop, h, statusOf] at ha hb
        subst ha; subst hb
        simp [reachableEdge, h]
    | provisionOk =>
      by_cases h : sched = true
      · simp [applyLifeOp, applyProvisionOk, h, statusOf] at ha hb
        subst ha; subst hb
        simp [reachableEdge]
        intro hrun
        exact hab hrun
      · simp [applyLifeOp, applyProvisionOk, h, statusOf] at ha hb
        exact absurd (ha.symm.trans hb) hab
    | provisionErr =>
      by_cases h : sched = true
      · simp [applyLifeOp, applyProvisionErr, h, statusOf] at ha hb
        subst ha; subst hb
        simp [reachableEdge]
        intro hfail
        exact hab hfail
      · simp [applyLifeOp, applyProvisionErr, h, statusOf] at ha hb
        exact absurd (ha.symm.trans hb) hab

/-- Every status edge of every operation trace is a `reachableEdge`. -/
theorem edges_reachable (tr : List LifeOp) :
    ∀ st, ∀ e ∈ edgesFrom st tr, reachableEdge e.1 e.2 = true := by
  induction tr with
  | nil =>
    intro st e he
    simp [edgesFrom] at he
  | cons o rest ih =>
    intro st e he
    simp only [edgesFrom] at he
    rcases List.mem_append.mp he with h1 | h2
    · rcases ha : statusOf st with _ | a <;>
        rcases hb : statusOf (applyLifeOp o st) with _ | b <;>
          simp [ha, hb] at h1
      by_cases hab : a = b
      · simp [hab] at h1
      · simp [hab] at h1
        subst h1
        exact reachable_step st o a b ha hb hab
    · exact ih _ e h2

/-- C3 amended: server status transitions follow the guards the source
actually implements — a changed status is always the target of start or the
provisioning success path (running, reached from any other status), of stop
(stopped, from any other status), or of the provisioning failure path (failed);
creation always yields initial status pending. The section 4.2 edge set is not
an invariant: `lifecycle_edge_counterexample` exhibits the extra edge pending
to stopped. -/
theorem lifecycle_reachable_edges (tr : List LifeOp) :
    (∀ e ∈ edgesOf tr, reachableEdge e.1 e.2 = true) ∧
    statusOf (applyCreate initLifecycle) = some ServerStatus.pending :=
  ⟨fun e he => edges_reachable tr initLifecycle e he, rfl⟩

/-- C5 as stated is false of the source: create schedules the provisioning
completion capturing ghost generation 0; stop then moves the server to stopped
at generation 1; the completion nevertheless fires unguarded (there is no
generation or status comparison in the setTimeout callback) and mutates the
stopped server back to running. -/
theorem stale_completion_counterexample :
    (applyLifeOp LifeOp.stop (applyLifeOp LifeOp.create initLifecycle)).provisionScheduled
        = true ∧
    (applyLifeOp LifeOp.stop (applyLifeOp LifeOp.create initLifecycle)).provisionCapturedGen
        = 0 ∧
    ((applyLifeOp LifeOp.stop (applyLifeOp LifeOp.create initLifecycle)).server.map
        (fun s => s.generation)) = some 1 ∧
    statusOf (applyLifeOp LifeOp.stop (applyLifeOp LifeOp.create initLifecycle))
        = some ServerStatus.stopped ∧
    statusOf (applyProvisionOk
        (applyLifeOp LifeOp.stop (applyLifeOp LifeOp.create initLifecycle)))
        = some ServerStatus.running := by
  exact ⟨rfl, rfl, rfl, rfl, rfl⟩

/-- C5 amended: a delayed completion that fires after its record no longer
exists is discarded without any mutation — the prisma update throws on the
missing row, the error is caught (or, for provisioning, the catch block's own
update throws on the same missing row), nothing is written, and a failed first
deployment stage does not schedule the second. There is no generation check,
so a completion firing after the record has merely transitioned is applied
unconditionally (see `stale_completion_counterexample`). -/
theorem missing_record_completion_discarded (st : LifecycleState) (ds : DeployState)
    (hs : st.server = none) (hd : ds.deployment = none) :
    applyProvisionOk st = { st with provisionScheduled := false } ∧
    applyProvisionErr st = { st with provisionScheduled := false } ∧
    applyDeployEvent DeployEvent.fireStage1 ds = { ds with stage1Scheduled := false } ∧
    applyDeployEvent (DeployEvent.fireStage2 true) ds = { ds with stage2Scheduled := false } ∧
    applyDeployEvent (DeployEvent.fireStage2 false) ds = { ds with stage2Scheduled := false } := by
  rcases st with ⟨srvo, sched, cap⟩
  rcases ds with ⟨dep, s1, s2⟩
  change srvo = none at hs
  change dep = none at hd
  subst hs; subst hd
  cases sched <;> cases s1 <;> cases s2 <;> exact ⟨rfl, rfl, rfl, rfl, rfl⟩

/-- Witness for `missing_record_completion_discarded` at concrete states with
missing records and scheduled tasks. -/
theorem missing_record_completion_discarded_witness :
    applyProvisionOk ⟨none, true, 0⟩ = ⟨none, false, 0⟩ ∧
    applyProvisionErr ⟨none, true, 0⟩ = ⟨none, false, 0⟩ ∧
    applyDeployEvent DeployEvent.fireStage1 ⟨none, true, true⟩ = ⟨none, false, true⟩ ∧
    applyDeployEvent (DeployEvent.fireStage2 true) ⟨none, true, true⟩ = ⟨none, true, false⟩ ∧
    applyDeployEvent (DeployEvent.fireStage2 false) ⟨none, true, true⟩ = ⟨none, true, false⟩ :=
  missing_record_completion_discarded ⟨none, true, 0⟩ ⟨none, true, true⟩ rfl rfl

/-- The deployment created against a running server, before any stage fires. -/
def redeployDemoStart : DeployState := ⟨some ⟨DeployStatus.pending, ""⟩, true, false⟩

/-- The same deployment after both stages fired (resolved to deployed). -/
def redeployDemoResolved : DeployState :=
  applyDeployEvent (DeployEvent.fireStage2 true)
    (applyDeployEvent DeployEvent.fireStage1 redeployDemoStart)

/-- The state the redeploy route leaves behind. -/
def redeployDemoAfter : DeployState := (redeploy ServerStatus.running redeployDemoResolved).1

/-- C6: the redeploy handler, run against a running server on a resolved
deployment, accepts and resets the status to building with the fresh log, but
contains no setTimeout: no stage task is scheduled, and the stage-firing
events — the only source of deployment resolution in the source — leave the
state fixed, so the deployment never resolves to deployed or failed. -/
theorem redeploy_no_resolution :
    createDeployment ServerStatus.running = Except.ok redeployDemoStart ∧
    redeployDemoResolved.deployment =
      some ⟨DeployStatus.deployed, "Build completed successfully!\nDeployment is live."⟩ ∧
    (redeploy ServerStatus.running redeployDemoResolved).2 = none ∧
    redeployDemoAfter.deployment =
      some ⟨DeployStatus.building, "Redeployment started...\nPulling latest changes..."⟩ ∧
    redeployDemoAfter.stage1Scheduled = false ∧
    redeployDemoAfter.stage2Scheduled = false ∧
    applyDeployEvent DeployEvent.fireStage1 redeployDemoAfter = redeployDemoAfter ∧
    applyDeployEvent (DeployEvent.fireStage2 true) redeployDemoAfter = redeployDemoAfter ∧
    applyDeployEvent (DeployEvent.fireStage2 false) redeployDemoAfter = redeployDemoAfter := by
  exact ⟨rfl, rfl, rfl, rfl, rfl, rfl, rfl, rfl, rfl⟩

/-- C10 as frozen: every stored specification field of a created server equals
the catalog's resolved specification for its provider and instance type. -/
def ClaimSpecSnapshot : Prop :=
  ∀ (req : CreateServerRequest) (s : CreatedServer) (specs : InstanceSpecs),
    createServer req = some s →
    instanceSpecs req.provider req.instanceType = some specs →
    s.cpu = specs.cpu ∧ s.memory = specs.memory ∧ s.storage = specs.storage ∧
    s.bandwidth = specs.bandwidth ∧ s.monthlyPrice = specs.monthlyPrice

/-- C10 as stated is false of the source: the creation handler lets the request
body override cpu, memory and storage (`cpu: cpu || instanceSpecs.cpu`), so a
request for aws/t3.micro carrying cpu 99 stores cpu 99 while the catalog
resolves cpu 2. -/
theorem spec_snapshot_counterexample :
    createServer ⟨"aws", "t3.micro", some 99, none, none⟩ =
      some ⟨99, 1, 20, 100, 8.5, ServerStatus.pending⟩ ∧
    instanceSpecs "aws" "t3.micro" = some ⟨2, 1, 20, 100, 8.5⟩ ∧
    ¬ ClaimSpecSnapshot := by
  refine ⟨rfl, rfl, fun hc => ?_⟩
  have h := (hc ⟨"aws", "t3.micro", some 99, none, none⟩
    ⟨99, 1, 20, 100, 8.5, ServerStatus.pending⟩ ⟨2, 1, 20, 100, 8.5⟩ rfl rfl).1
  exact absurd h (by decide)

/-- C10 amended: bandwidth and monthly price are always snapshotted from the
catalog's resolved specification at creation time (so later catalog changes
cannot alter an existing row, which stores plain copies); cpu, memory and
storage are snapshotted from the catalog exactly when the request does not
override them, and take the request's value when it does; the initial status
is always pending. -/
theorem spec_snapshot_fields (req : CreateServerRequest) (specs : InstanceSpecs)
    (s : CreatedServer) (hcat : instanceSpecs req.provider req.instanceType = some specs)
    (hmk : createServer req = some s) :
    s.bandwidth = specs.bandwidth ∧ s.monthlyPrice = specs.monthlyPrice ∧
    s.status = ServerStatus.pending ∧
    (req.cpu = none → s.cpu = specs.cpu) ∧ (∀ c, req.cpu = some c → s.cpu = c) ∧
    (req.memory = none → s.memory = specs.memory) ∧
    (∀ c, req.memory = some c → s.memory = c) ∧
    (req.storage = none → s.storage = specs.storage) ∧
    (∀ c, req.storage = some c → s.storage = c) := by
  rw [createServer, hcat] at hmk
  simp only [Option.map_some'] at hmk
  injection hmk with hmk
  subst hmk
  refine ⟨rfl, rfl, rfl, ?_, ?_, ?_, ?_, ?_, ?_⟩ <;>
    first
      | (intro h; rw [h]; rfl)
      | (intro c h; rw [h]; rfl)

/-- Witness for `spec_snapshot_fields` at a concrete override-free request. -/
theorem spec_snapshot_fields_witness :
    (⟨2, 2, 20, 200, 14, ServerStatus.pending⟩ : CreatedServer).bandwidth =
      (⟨2, 2, 20, 200, 14⟩ : InstanceSpecs).bandwidth :=
  (spec_snapshot_fields ⟨"gcp", "e2-small", none, none, none⟩ ⟨2, 2, 20, 200, 14⟩
    ⟨2, 2, 20, 200, 14, ServerStatus.pending⟩ rfl rfl).1

/-- After stopMetricsCollection no registry entry carries the stopped id:
either none existed (find? returned none) or the Map delete removed it. -/
theorem stop_intervals_not_id (serverId : String) (st : CollectorState) :
    ∀ p ∈ (stopMetricsCollection serverId st).intervals, (p.1 == serverId) = false := by
  unfold stopMetricsCollection
  cases h : lookupInterval serverId st with
  | none =>
    intro p hp
    unfold lookupInterval at h
    rw [Option.map_eq_none'] at h
    have := List.find?_eq_none.mp h p hp
    simpa using this
  | some k =>
    intro p hp
    have := List.of_mem_filter hp
    simpa using this

/-- C2: restarting collection for a server id leaves exactly one registry
entry for that id, the previously registered timer (when there was one) has
been cancelled, and the registry stays a well-formed map; stopping cancels and
removes the entry when present and is the identity otherwise. -/
theorem collector_restart_unique (st : CollectorState) (serverId : String)
    (hwf : CollectorWF st) :
    ((startMetricsCollection serverId st).intervals.filter
        (fun p => p.1 == serverId)).length = 1 ∧
    CollectorWF (startMetricsCollection serverId st) ∧
    (∀ k, lookupInterval serverId st = some k →
      k ∈ (startMetricsCollection serverId st).cancelled) ∧
    (lookupInterval serverId st = none → stopMetricsCollection serverId st = st) ∧
    (∀ k, lookupInterval serverId st = some k →
      (stopMetricsCollection serverId st).intervals.filter (fun p => p.1 == serverId) = [] ∧
      k ∈ (stopMetricsCollection serverId st).cancelled) ∧
    CollectorWF (stopMetricsCollection serverId st) := by
  have hnot := stop_intervals_not_id serverId st
  have hfilter : (stopMetricsCollection serverId st).intervals.filter
      (fun p => p.1 == serverId) = [] :=
    List.filter_eq_nil_iff.mpr (fun p hp => by simp [hnot p hp])
  have hstopwf : CollectorWF (stopMetricsCollection serverId st) := by
    unfold stopMetricsCollection
    cases h : lookupInterval serverId st with
    | none => exact hwf
    | some k =>
      exact hwf.sublist ((List.filter_sublist _).map _)
  refine ⟨?_, ?_, ?_, ?_, ?_, hstopwf⟩
  · unfold startMetricsCollection
    rw [List.filter_cons_of_pos (by simp), hfilter]
    rfl
  · unfold startMetricsCollection CollectorWF
    simp only [List.map_cons]
    refine List.nodup_cons.mpr ⟨?_, hstopwf⟩
    intro hmem
    obtain ⟨p, hp, hep⟩ := List.mem_map.mp hmem
    have := hnot p hp
    rw [hep] at this
    simp at this
  · intro k hk
    unfold startMetricsCollection stopMetricsCollection
    rw [hk]
    exact List.mem_cons_self k _
  · intro h
    unfold stopMetricsCollection
    rw [h]
  · intro k hk
    refine ⟨hfilter, ?_⟩
    unfold stopMetricsCollection
    rw [hk]
    exact List.mem_cons_self k _

/-- Witness for `collector_restart_unique` on a concrete one-entry registry. -/
theorem collector_restart_unique_witness :
    ((startMetricsCollection "a" ⟨[("a", 5)], [], 7⟩).intervals.filter
        (fun p => p.1 == "a")).length = 1 :=
  (collector_restart_unique ⟨[("a", 5)], [], 7⟩ "a" (by unfold CollectorWF; decide)).1

/-- C7: a recent sample is flagged as an alert exactly when cpu is above 80,
memory above 85 or disk above 90 (strictly: cpu equal to 80 does not alert,
80.1 does); the type tag prefers cpu over memory over disk; and the returned
alerts are the slice of the first 10 of the filtered, newest-first metrics, so
at most the 10 most recent alerting samples (every returned sample is at least
as recent as every alerting sample beyond the slice). -/
theorem overview_alerts_spec (l : List MetricRow)
    (hsorted : l.Pairwise (fun a b => b.ts ≤ a.ts)) :
    (∀ m : MetricRow, isAlert m = true ↔
      (80 < m.cpuUsage ∨ 85 < m.memoryUsage ∨ 90 < m.diskUsage)) ∧
    isAlert ⟨0, 0, 80, 0, 0⟩ = false ∧
    isAlert ⟨0, 0, 80.1, 0, 0⟩ = true ∧
    (∀ m : MetricRow, 80 < m.cpuUsage → alertType m = AlertType.cpu) ∧
    (∀ m : MetricRow, ¬ 80 < m.cpuUsage → 85 < m.memoryUsage →
      alertType m = AlertType.memory) ∧
    (∀ m : MetricRow, ¬ 80 < m.cpuUsage → ¬ 85 < m.memoryUsage →
      alertType m = AlertType.disk) ∧
    overviewAlerts l = ((l.filter isAlert).take 10).map (fun m => (m, alertType m)) ∧
    (overviewAlerts l).length ≤ 10 ∧
    (∀ x ∈ (l.filter isAlert).take 10, ∀ y ∈ (l.filter isAlert).drop 10, y.ts ≤ x.ts) := by
  refine ⟨?_, ?_, ?_, ?_, ?_, ?_, rfl, ?_, ?_⟩
  · intro m
    simp [isAlert, or_assoc]
  · norm_num [isAlert]
  · norm_num [isAlert]
  · intro m h
    simp [alertType, h]
  · intro m h1 h2
    simp [alertType, h1, h2]
  · intro m h1 h2
    simp [alertType, h1, h2]
  · simp only [overviewAlerts, List.length_map, List.length_take]
    omega
  · intro x hx y hy
    have hp : (l.filter isAlert).Pairwise (fun a b => b.ts ≤ a.ts) := hsorted.filter _
    rw [← List.take_append_drop 10 (l.filter isAlert)] at hp
    exact (List.pairwise_append.mp hp).2.2 x hx y hy

/-- Witness for `overview_alerts_spec` on a concrete newest-first list. -/
theorem overview_alerts_spec_witness :
    (overviewAlerts [⟨1, 5, 90, 0, 0⟩, ⟨2, 3, 10, 0, 0⟩]).length ≤ 10 :=
  (overview_alerts_spec [⟨1, 5, 90, 0, 0⟩, ⟨2, 3, 10, 0, 0⟩]
    (by decide)).2.2.2.2.2.2.2.1

/-- C8: the prorated current-month cost of a server is
monthlyPrice / daysInMonth * min(daysUsed, daysPassed), with daysUsed the
whole-day count rounded up from max(createdAt, startOfMonth) to now and
daysPassed the handler's day-of-month reading of the clock (the claim's
daysElapsedInCurrentMonth); on the spec's worked example — price 30, a 30-day
month, the server created exactly at the start of the month, now 10 full days
later — the cost is exactly 10. -/
theorem prorated_cost_formula :
    (∀ (price : ℚ) (dim nowMs createdAtMs somMs : Nat),
      proratedCost price dim nowMs createdAtMs somMs =
        price / (dim : ℚ) *
          min (((⌈((nowMs : ℚ) - ((max createdAtMs somMs : Nat) : ℚ)) / (dayMs : ℚ)⌉ : ℤ) : ℚ))
            ((daysPassed nowMs somMs : ℚ))) ∧
    (∀ somMs : Nat, daysPassed (somMs + 10 * dayMs) somMs = 11) ∧
    (∀ somMs : Nat, daysUsed (somMs + 10 * dayMs) somMs somMs = 10) ∧
    (∀ somMs : Nat, proratedCost 30 30 (somMs + 10 * dayMs) somMs somMs = 10) := by
  have hday : (dayMs : ℚ) ≠ 0 := by norm_num [dayMs]
  have hdaypos : 0 < dayMs := by norm_num [dayMs]
  have hdp : ∀ somMs : Nat, daysPassed (somMs + 10 * dayMs) somMs = 11 := by
    intro s
    unfold daysPassed
    rw [Nat.add_sub_cancel_left s (10 * dayMs), Nat.mul_div_cancel 10 hdaypos]
  have hdu : ∀ somMs : Nat, daysUsed (somMs + 10 * dayMs) somMs somMs = 10 := by
    intro s
    unfold daysUsed serverStartDate
    rw [max_self]
    have hcast : ((s + 10 * dayMs : Nat) : ℚ) - (s : ℚ) = 10 * (dayMs : ℚ) := by
      push_cast
      ring
    rw [hcast, mul_div_assoc, div_self hday, mul_one]
    have h10 : ((10 : ℤ) : ℚ) = (10 : ℚ) := by norm_num
    rw [← h10, Int.ceil_intCast]
  refine ⟨fun price dim nowMs c s => rfl, hdp, hdu, ?_⟩
  intro s
  unfold proratedCost
  rw [hdu s, hdp s]
  norm_num

/-- C9: the divisor of projectedMonthlyCost is never zero — daysPassed is the
1-based day of the month, so it is at least 1 for every clock value — and at
the first instant of a month (now equal to the start of the month, every
server created no later than that instant) every prorated cost is zero, hence
the computation yields zero usage and a zero projection. -/
theorem projected_cost_division_guard :
    (∀ nowMs somMs : Nat, ((daysPassed nowMs somMs : ℚ) ≠ 0)) ∧
    (∀ (servers : List BillingServer) (daysInMonth somMs : Nat),
      (∀ s ∈ servers, s.createdAtMs ≤ somMs) →
      currentMonthUsage servers daysInMonth somMs somMs = 0 ∧
      projectedMonthlyCost servers daysInMonth somMs somMs = 0) := by
  refine ⟨fun n s => Nat.cast_ne_zero.mpr (Nat.succ_ne_zero _), ?_⟩
  intro servers dim som hcr
  have hcost : ∀ s ∈ servers, proratedCost s.monthlyPrice dim som s.createdAtMs som = 0 := by
    intro s hs
    unfold proratedCost daysUsed serverStartDate daysPassed
    rw [max_eq_right (hcr s hs), sub_self, zero_div, Int.ceil_zero, Nat.sub_self,
      Nat.zero_div]
    norm_num
  have husage : currentMonthUsage servers dim som som = 0 := by
    unfold currentMonthUsage
    refine List.sum_eq_zero ?_
    intro x hx
    obtain ⟨s, hs, rfl⟩ := List.mem_map.mp hx
    exact hcost s hs
  refine ⟨husage, ?_⟩
  unfold projectedMonthlyCost
  rw [husage, zero_div, zero_mul]

/-- Inserting a sample whose timestamp is below every element of a
newest-first list lands at the end of the list. -/
theorem insertTsDesc_of_lt (s : Sample) (m : List Sample)
    (h : ∀ y ∈ m, s.ts < y.ts) : insertTsDesc s m = m ++ [s] := by
  induction m with
  | nil => rfl
  | cons y ys ih =>
    have hy : s.ts < y.ts := h y (List.mem_cons_self y ys)
    simp only [insertTsDesc]
    rw [if_neg (by omega), ih (fun z hz => h z (List.mem_cons_of_mem y hz))]
    rfl

/-- The newest-first sort of a strictly ascending history is its reversal. -/
theorem sortTsDesc_ascending (l : List Sample)
    (h : l.Pairwise (fun a b => a.ts < b.ts)) : sortTsDesc l = l.reverse := by
  induction l with
  | nil => rfl
  | cons x xs ih =>
    rw [List.pairwise_cons] at h
    have hfold : sortTsDesc (x :: xs) = insertTsDesc x (sortTsDesc xs) := rfl
    rw [hfold, ih h.2,
      insertTsDesc_of_lt x xs.reverse (fun y hy => h.1 y (List.mem_reverse.mp hy)),
      List.reverse_cons]

set_option maxRecDepth 4000 in
/-- One insert-plus-retention step: fed a strictly newer sample with a fresh
row id, the newest-cap suffix of the history l becomes the newest-cap suffix
of the history l ++ [s]. -/
theorem retention_step (l : List Sample) (s : Sample)
    (hasc : l.Pairwise (fun a b => a.ts < b.ts))
    (hids : (l ++ [s]).Pairwise (fun a b => a.id ≠ b.id))
    (hlt : ∀ y ∈ l, y.ts < s.ts) :
    insertSample (l.drop (l.length - retentionCap)) s =
      (l ++ [s]).drop (l.length + 1 - retentionCap) := by
  have hKpos : 0 < retentionCap := by norm_num [retentionCap]
  obtain ⟨R, hR⟩ : ∃ R, R = l.drop (l.length - retentionCap) := ⟨_, rfl⟩
  rw [← hR]
  have hRsub : List.Sublist R l := by
    rw [hR]
    exact List.drop_sublist _ l
  have hRasc : R.Pairwise (fun a b => a.ts < b.ts) := hasc.sublist hRsub
  have hRslt : ∀ y ∈ R, y.ts < s.ts := fun y hy => hlt y (hRsub.subset hy)
  have hRs_asc : (R ++ [s]).Pairwise (fun a b => a.ts < b.ts) := by
    rw [List.pairwise_append]
    refine ⟨hRasc, by simp, ?_⟩
    intro a ha b hb
    rw [List.mem_singleton] at hb
    subst hb
    exact hRslt a ha
  have hsort : sortTsDesc (R ++ [s]) = s :: R.reverse := by
    rw [sortTsDesc_ascending _ hRs_asc, List.reverse_append, List.reverse_singleton]
    rfl
  by_cases hlen : l.length < retentionCap
  · have hRl : R = l := by
      rw [hR, show l.length - retentionCap = 0 by omega, List.drop_zero]
    have hold : (sortTsDesc (R ++ [s])).drop retentionCap = [] := by
      rw [hsort]
      apply List.drop_eq_nil_of_le
      simp only [List.length_cons, List.length_reverse]
      rw [hRl]
      omega
    unfold insertSample enforceRetention
    rw [hold]
    simp only [List.any_nil, Bool.not_false]
    rw [List.filter_eq_self.mpr (fun a ha => rfl), hRl,
      show l.length + 1 - retentionCap = 0 by omega, List.drop_zero]
  · push_neg at hlen
    have hRlen : R.length = retentionCap := by
      rw [hR, List.length_drop]
      omega
    obtain ⟨r0, R', hRe⟩ : ∃ r0 R', R = r0 :: R' := by
      cases hc : R with
      | nil =>
        rw [hc] at hRlen
        simp at hRlen
        omega
      | cons a b => exact ⟨a, b, rfl⟩
    have hR'len : R'.length = retentionCap - 1 := by
      rw [hRe] at hRlen
      simp at hRlen
      omega
    have hold : (sortTsDesc (R ++ [s])).drop retentionCap = [r0] := by
      rw [hsort, hRe, List.reverse_cons,
        show s :: (R'.reverse ++ [r0]) = (s :: R'.reverse) ++ [r0] from rfl,
        show retentionCap = (s :: R'.reverse).length by
          simp only [List.length_cons, List.length_reverse]
          omega]
      exact List.drop_left _ _
    have hids' : (R ++ [s]).Pairwise (fun a b => a.id ≠ b.id) :=
      hids.sublist (hRsub.append_right [s])
    rw [hRe, List.cons_append] at hids'
    have hr0 : ∀ x ∈ R' ++ [s], r0.id ≠ x.id := (List.pairwise_cons.mp hids').1
    unfold insertSample enforceRetention
    rw [hold, hRe, List.cons_append,
      List.filter_cons_of_neg (by simp),
      List.filter_eq_self.mpr (fun x hx => by
        have hbx : (r0.id == x.id) = false := beq_eq_false_iff_ne.mpr (hr0 x hx)
        simp [hbx])]
    have hdropapp : (l ++ [s]).drop (l.length + 1 - retentionCap) =
        l.drop (l.length + 1 - retentionCap) ++ [s] :=
      List.drop_append_of_le_length (by omega)
    have hdrop1 : l.drop (l.length + 1 - retentionCap) = R' := by
      rw [show l.length + 1 - retentionCap = (l.length - retentionCap) + 1 by omega,
        ← List.drop_drop, ← hR, hRe]
      rfl
    rw [hdropapp, hdrop1]

/-- The store after feeding a whole strictly ascending history with fresh row
ids is the newest-cap suffix of that history. -/
theorem runInserts_drop (l : List Sample) :
    l.Pairwise (fun a b => a.ts < b.ts) → l.Pairwise (fun a b => a.id ≠ b.id) →
    runInserts l = l.drop (l.length - retentionCap) := by
  induction l using List.reverseRecOn with
  | nil => intro _ _; rfl
  | append_singleton l s ih =>
    intro hasc hids
    have h1 := List.pairwise_append.mp hasc
    have hlt : ∀ y ∈ l, y.ts < s.ts :=
      fun y hy => h1.2.2 y hy s (List.mem_singleton_self s)
    have hfold : runInserts (l ++ [s]) = insertSample (runInserts l) s := by
      unfold runInserts
      rw [List.foldl_append]
      rfl
    rw [hfold, ih h1.1 (List.pairwise_append.mp hids).1,
      retention_step l s h1.1 hids hlt]
    simp [List.length_append]

/-- C1: inserting N samples for one server, with strictly increasing
timestamps (each tick stamps the current time) and pairwise distinct row ids,
leaves the store exactly the suffix of the newest retentionCap = 1000 samples
of the history: the stored count is min(N, 1000) and every retained sample is
strictly newer than every pruned one. The theorem quantifies over every
ascending history, in particular over each prefix of an insertion sequence:
it describes the store after each insert and the retention following it. -/
theorem metrics_retention_bound (samples : List Sample)
    (hasc : samples.Pairwise (fun a b => a.ts < b.ts))
    (hids : samples.Pairwise (fun a b => a.id ≠ b.id)) :
    runInserts samples = samples.drop (samples.length - retentionCap) ∧
    (runInserts samples).length = min samples.length retentionCap ∧
    (∀ x ∈ runInserts samples, ∀ y ∈ samples, y ∉ runInserts samples → y.ts < x.ts) := by
  have hmain := runInserts_drop samples hasc hids
  refine ⟨hmain, ?_, ?_⟩
  · rw [hmain, List.length_drop]
    omega
  · intro x hx y hy hyn
    rw [hmain] at hx hyn
    rw [← List.take_append_drop (samples.length - retentionCap) samples] at hy hasc
    rcases List.mem_append.mp hy with hyt | hyd
    · exact (List.pairwise_append.mp hasc).2.2 y hyt x hx
    · exact absurd hyd hyn

/-- Witness for `metrics_retention_bound` on a concrete three-sample history. -/
theorem metrics_retention_bound_witness :
    runInserts [⟨0, 0⟩, ⟨1, 1⟩, ⟨2, 2⟩] =
      ([⟨0, 0⟩, ⟨1, 1⟩, ⟨2, 2⟩] : List Sample).drop (3 - retentionCap) :=
  (metrics_retention_bound [⟨0, 0⟩, ⟨1, 1⟩, ⟨2, 2⟩] (by decide) (by decide)).1
